import Mathlib

/-!
# Grocery semantic search: `rag.js` and the search handler of `main.js`

A shallow embedding of the retrieval core of the grocery web application:

* `cosineSimilarity` (rag.js, lines 7-20),
* `initializeRAG` (rag.js, lines 22-50) as a transition on the module state
  `extractor` / `productEmbeddings`,
* `searchProducts` (rag.js, lines 52-78),
* the `input` handler of the search box (main.js, lines 138-161).

## Numbers

A JavaScript number is modelled as `JSNumber α = Option α`: `some x` is the exact
value `x` of a linearly ordered field `α`, and `none` is `NaN`.  Rounding, signed
zeros and the infinities of IEEE doubles are not represented.  `Math.sqrt` is a
parameter `sqrt : α → α` of the model (`Real.sqrt` when `α = ℝ`).  The components of
an embedding are numbers of `α`; `NaN` arises only from reading past the last
component of an array (`undefined`, which arithmetic converts to `NaN`).

## Asynchrony

`await`ed calls are modelled by their outcome: `some v` when the promise fulfils with
`v`, `none` when it rejects.
-/

namespace Rag

/-! ## JavaScript numbers -/

/-- A JavaScript number over the exact field `α`; `none` is `NaN`. -/
abbrev JSNumber (α : Type) := Option α

namespace JSNumber

variable {α : Type}

/-- The `+` operator: `NaN` is absorbing. -/
def add [Add α] : JSNumber α → JSNumber α → JSNumber α
  | some x, some y => some (x + y)
  | _, _ => none

/-- The binary `-` operator: `NaN` is absorbing. -/
def sub [Sub α] : JSNumber α → JSNumber α → JSNumber α
  | some x, some y => some (x - y)
  | _, _ => none

/-- The `*` operator: `NaN` is absorbing. -/
def mul [Mul α] : JSNumber α → JSNumber α → JSNumber α
  | some x, some y => some (x * y)
  | _, _ => none

/-- The `/` operator.  A zero divisor has no exact value (JavaScript yields an
infinity or `NaN`); it is mapped to `NaN`.  `cosineSimilarity` never divides by
zero, see `cosineSimilarity_divisor_ne_zero`. -/
def div [Div α] [Zero α] [DecidableEq α] : JSNumber α → JSNumber α → JSNumber α
  | some x, some y => if y = 0 then none else some (x / y)
  | _, _ => none

/-- The function `Math.sqrt`, over the parameter `sqrt` for non-negative arguments;
a negative argument and `NaN` give `NaN`. -/
def sqrt [Zero α] [LT α] [DecidableRel (fun (x y : α) => x < y)] (sqrt : α → α) :
    JSNumber α → JSNumber α
  | some x => if x < 0 then none else some (sqrt x)
  | none => none

/-- Whether a comparator result makes the sort place its first argument after its
second one: the result is a number greater than zero.  `Array.prototype.sort`
treats a `NaN` comparator result as `+0`. -/
def isPositive [Zero α] [LT α] [DecidableRel (fun (x y : α) => x < y)] : JSNumber α → Bool
  | some x => decide (0 < x)
  | none => false

end JSNumber

/-! ## Arrays -/

/-- The method `Array.prototype.sort(comparefn)`.  The sort is stable; it is embedded
as insertion sort, where an element stays in front of a later one unless the
comparator is positive on the pair.  For a consistent comparator every stable sort
returns the same array. -/
def jsSort {β γ : Type} [Zero γ] [LT γ] [DecidableRel (fun (x y : γ) => x < y)]
    (comparefn : β → β → JSNumber γ) (l : List β) : List β :=
  l.insertionSort (fun x y => JSNumber.isPositive (comparefn x y) = false)

/-- The call `arr.slice(0, end)` for an integer `end`: a negative `end` counts from
the end of the array (`max (len + end) 0`), a non-negative one is capped at the
length. -/
def slice0 {β : Type} (arr : List β) (end_ : Int) : List β :=
  if end_ < 0 then arr.take ((arr.length : Int) + end_).toNat else arr.take end_.toNat

/-- The method `Array.prototype.indexOf`: the first index of `x`, or `-1`. -/
def indexOf (arr : List Nat) (x : Nat) : Int :=
  if x ∈ arr then (arr.indexOf x : Int) else -1

/-! ## Strings -/

/-- The code points removed by `String.prototype.trim`: ECMAScript `WhiteSpace`
(TAB, VT, FF, ZWNBSP and the Unicode space separators) and `LineTerminator`
(LF, CR, LS, PS). -/
def isTrimmed (c : Char) : Bool :=
  c.val = 0x09 || c.val = 0x0B || c.val = 0x0C || c.val = 0xFEFF ||
  c.val = 0x20 || c.val = 0xA0 || c.val = 0x1680 ||
  (0x2000 ≤ c.val && c.val ≤ 0x200A) ||
  c.val = 0x202F || c.val = 0x205F || c.val = 0x3000 ||
  c.val = 0x0A || c.val = 0x0D || c.val = 0x2028 || c.val = 0x2029

/-- The method `String.prototype.trim`. -/
def trim (s : String) : String :=
  ⟨((s.data.dropWhile isTrimmed).reverse.dropWhile isTrimmed).reverse⟩

/-- The method `String.prototype.includes(searchString)`: scan the start positions
of `s` from left to right and compare `searchString` with the text found there. -/
def includes (s searchString : String) : Bool :=
  s.data.tails.any (fun t => searchString.data.isPrefixOf t)

/-! ## Data -/

/-- A catalog record of `products.json`, with the fields read by the search code. -/
structure Product where
  id : Nat
  name : String
  description : String
  tags : List String

/-- An element of `productEmbeddings`. -/
structure Entry (α : Type) where
  id : Nat
  embedding : List α

/-- An element of the array `scores` in `searchProducts`. -/
structure Scored (α : Type) where
  id : Nat
  score : JSNumber α

/-- The feature extractor returned by `pipeline`, called with the options
`pooling: 'mean', normalize: true`.  `none`: the call throws. -/
abbrev Extractor (α : Type) := String → Option (List α)

/-- The module state of rag.js. -/
structure RagState (α : Type) where
  extractor : Option (Extractor α)
  productEmbeddings : List (Entry α)

/-- The state of the module when it is loaded: `extractor = null`,
`productEmbeddings = []`. -/
def RagState.initial (α : Type) : RagState α := ⟨none, []⟩

/-! ## rag.js -/

section Core

variable {α : Type} [LinearOrderedField α]

/-- The local variables of the loop of `cosineSimilarity`. -/
structure LoopState (α : Type) where
  dotProduct : JSNumber α
  magnitudeA : JSNumber α
  magnitudeB : JSNumber α

/-- One iteration of the loop of `cosineSimilarity`, for the index `i`.  Reading
past the end of an array gives `undefined`, which the product turns into `NaN`. -/
def loopBody (a b : List α) (s : LoopState α) (i : Nat) : LoopState α :=
  { dotProduct := JSNumber.add s.dotProduct (JSNumber.mul a[i]? b[i]?)
    magnitudeA := JSNumber.add s.magnitudeA (JSNumber.mul a[i]? a[i]?)
    magnitudeB := JSNumber.add s.magnitudeB (JSNumber.mul b[i]? b[i]?) }

/-- The loop `for (let i = 0; i < a.length; i++)` of `cosineSimilarity`. -/
def cosineLoop (a b : List α) : LoopState α :=
  (List.range a.length).foldl (loopBody a b) ⟨some 0, some 0, some 0⟩

/-- The function `cosineSimilarity(a, b)`. -/
def cosineSimilarity (sqrt : α → α) (a b : List α) : JSNumber α :=
  let s := cosineLoop a b
  let magnitudeA := JSNumber.sqrt sqrt s.magnitudeA
  let magnitudeB := JSNumber.sqrt sqrt s.magnitudeB
  if magnitudeA = some 0 ∨ magnitudeB = some 0 then some 0
  else JSNumber.div s.dotProduct (JSNumber.mul magnitudeA magnitudeB)

/-- The text embedded for a product:
the template string of `name`, `description` and the joined `tags`. -/
def textToEmbed (product : Product) : String :=
  product.name ++ ". " ++ product.description ++ ". Tags: " ++ ", ".intercalate product.tags

/-- The loop `for (const product of products)` of `initializeRAG`, started on the
current contents of `productEmbeddings`: every embedded product is pushed at once.
The result is `(true, _)` when the loop ran to its end and `(false, _)` when the
extractor threw, together with `productEmbeddings` at that moment. -/
def embedLoop (extractor : Extractor α) :
    List Product → List (Entry α) → Bool × List (Entry α)
  | [], productEmbeddings => (true, productEmbeddings)
  | product :: rest, productEmbeddings =>
    match extractor (textToEmbed product) with
    | none => (false, productEmbeddings)
    | some output => embedLoop extractor rest (productEmbeddings ++ [⟨product.id, output⟩])

/-- The first block of `initializeRAG` (lines 24-29): the extractor after
`if (!extractor) { extractor = await pipeline(...) }`.  `pipeline` is the outcome of
loading the model (`none`: loading throws); it is only consulted while `extractor`
is `null`. -/
def loadExtractor (pipeline : Option (Extractor α)) (st : RagState α) :
    Option (Extractor α) :=
  match st.extractor with
  | some extractor => some extractor
  | none => pipeline

/-- The function `initializeRAG(products, statusCallback)`: the returned boolean and
the module state after the call.  When loading the model throws, the `catch` block
returns `false` with the state untouched; otherwise the loop runs and the `catch`
block returns `false` if the extractor throws.  The status callback only writes text
to the page and is left out. -/
def initializeRAG (pipeline : Option (Extractor α)) (products : List Product)
    (st : RagState α) : Bool × RagState α :=
  match loadExtractor pipeline st with
  | none => (false, st)
  | some extractor =>
    let r := embedLoop extractor products st.productEmbeddings
    (r.1, ⟨some extractor, r.2⟩)

/-- The default value of the parameter `topK` of `searchProducts`. -/
def defaultTopK : Int := 5

/-- The array `scores` of `searchProducts` (lines 63-68): one record per index
entry, in index order. -/
def scores (sqrt : α → α) (productEmbeddings : List (Entry α)) (queryEmbedding : List α) :
    List (Scored α) :=
  productEmbeddings.map (fun p => ⟨p.id, cosineSimilarity sqrt queryEmbedding p.embedding⟩)

/-- The array `topIds` of `searchProducts` (lines 71 and 74): `scores` sorted with
the comparator `(a, b) => b.score - a.score`, sliced and mapped to the ids. -/
def topIds (sqrt : α → α) (productEmbeddings : List (Entry α)) (queryEmbedding : List α)
    (topK : Int) : List Nat :=
  (slice0 (jsSort (fun a b => JSNumber.sub b.score a.score)
    (scores sqrt productEmbeddings queryEmbedding)) topK).map (fun s => s.id)

/-- The ranking part of `searchProducts` (lines 62-77), for the embedded query. -/
def rankProducts (sqrt : α → α) (productEmbeddings : List (Entry α))
    (queryEmbedding : List α) (products : List Product) (topK : Int) : List Product :=
  let topIds := topIds sqrt productEmbeddings queryEmbedding topK
  jsSort (fun a b => (some (indexOf topIds a.id - indexOf topIds b.id) : JSNumber Int))
    (products.filter (fun p => topIds.contains p.id))

/-- The function `searchProducts(query, products, topK)`: `some result` when the
returned promise fulfils, `none` when it rejects because the extractor threw. -/
def searchProducts (sqrt : α → α) (st : RagState α) (query : String)
    (products : List Product) (topK : Int) : Option (List Product) :=
  match st.extractor with
  | none => some []
  | some extractor =>
    if st.productEmbeddings.length = 0 then some []
    else
      match extractor query with
      | none => none
      | some queryEmbedding =>
        some (rankProducts sqrt st.productEmbeddings queryEmbedding products topK)

/-! ## main.js -/

/-- The body of the `input` handler of the search box, once the debounce timer
fires: the list handed to `renderProducts` (`none` when `searchProducts` rejects and
nothing is rendered).  `value` is `e.target.value`, `products` the loaded catalog,
`toLowerCase` the method `String.prototype.toLowerCase`. -/
def searchInputHandler (sqrt : α → α) (toLowerCase : String → String)
    (isRAGReady : Bool) (st : RagState α) (products : List Product) (value : String) :
    Option (List Product) :=
  let query := trim value
  if query = "" then some products
  else if isRAGReady then searchProducts sqrt st query products defaultTopK
  else
    let lowerQ := toLowerCase query
    some (products.filter (fun p =>
      includes (toLowerCase p.name) lowerQ || includes (toLowerCase p.description) lowerQ))

end Core

/-! ## Vocabulary of the statements -/

section Vocabulary
variable {α : Type} [LinearOrderedField α]

/-- The comparison `x >= y` of two JavaScript numbers; it is false when one of them
is `NaN`. -/
def JSNumber.ge (x y : JSNumber α) : Prop :=
  ∃ u v, x = some u ∧ y = some v ∧ v ≤ u

/-- The similarity of the query to the embedding stored for `id` in
`productEmbeddings` (the first entry with that id); `NaN` when there is none. -/
def storedScore (sqrt : α → α) (productEmbeddings : List (Entry α)) (queryEmbedding : List α)
    (id : Nat) : JSNumber α :=
  match productEmbeddings.find? (fun e => decide (e.id = id)) with
  | some e => cosineSimilarity sqrt queryEmbedding e.embedding
  | none => none

end Vocabulary

section Vocabulary2

/-- The text `q` occurs as a substring of the text `s`. -/
def occursIn (q s : String) : Prop :=
  ∃ pre post : List Char, s.data = pre ++ q.data ++ post

/-- The entry pushed for a product whose embedding is `output`. -/
def entryOf {α : Type} (product : Product) (output : List α) : Entry α :=
  ⟨product.id, output⟩

/-- The catalog record with its tags replaced. -/
def withTags (f : Product → List String) (p : Product) : Product :=
  ⟨p.id, p.name, p.description, f p⟩

end Vocabulary2

/-! ## Example data -/

section Examples

/-- A catalog record. -/
def apple : Product := ⟨1, "Apple", "Crisp red apple", ["fruit", "fresh"]⟩

/-- A second catalog record. -/
def milk : Product := ⟨2, "Milk", "Whole milk", ["dairy"]⟩

/-- An extractor that embeds every text as the one-dimensional vector `[1]`. -/
def unitExtractor : Extractor ℝ := fun _ => some [1]

/-- An extractor that throws on the text of `milk` and embeds every other text as
`[1]`. -/
def failingExtractor : Extractor ℝ :=
  fun text => if text = textToEmbed milk then none else some [1]

/-- The state after one successful `initializeRAG` over `[apple, milk]` with
`unitExtractor`. -/
def indexedState : RagState ℝ := ⟨some unitExtractor, [⟨1, [1]⟩, ⟨2, [1]⟩]⟩

/-- The state after two successful `initializeRAG` calls over `[apple]` with
`unitExtractor`. -/
def duplicateState : RagState ℝ := ⟨some unitExtractor, [⟨1, [1]⟩, ⟨1, [1]⟩]⟩

end Examples

section ExampleCatalog

/-- A catalog of six records with the ids 1 to 6. -/
def catalog6 : List Product :=
  [apple, milk, ⟨3, "Bread", "Wholegrain loaf", ["bakery"]⟩, ⟨4, "Eggs", "Free range eggs", []⟩,
    ⟨5, "Rice", "Basmati rice", ["grain"]⟩, ⟨6, "Tea", "Green tea", ["drink"]⟩]

/-- The state after one successful `initializeRAG` over `catalog6` with
`unitExtractor`. -/
def readyState6 : RagState ℝ :=
  ⟨some unitExtractor, [⟨1, [1]⟩, ⟨2, [1]⟩, ⟨3, [1]⟩, ⟨4, [1]⟩, ⟨5, [1]⟩, ⟨6, [1]⟩]⟩

end ExampleCatalog

section ExampleStates

/-- A catalog record with the id of `apple` and another text. -/
def greenApple : Product := ⟨1, "Green apple", "Tart green apple", ["fruit"]⟩

/-- An extractor into the plane: the text of `apple` goes to `[0, 1]`, the text of
`milk` to `[3, 4]`, every other text to `[1, 0]`. -/
def planeExtractor : Extractor ℝ :=
  fun text =>
    if text = textToEmbed apple then some [0, 1]
    else if text = textToEmbed milk then some [3, 4]
    else some [1, 0]

/-- An extractor of varying dimension: the text of `milk` goes to `[1]`, every other
text to `[1, 0]`. -/
def raggedExtractor : Extractor ℝ :=
  fun text => if text = textToEmbed milk then some [1] else some [1, 0]

/-- The state after `initializeRAG` over `[apple, milk]` with `planeExtractor`. -/
def planeState : RagState ℝ :=
  ⟨some planeExtractor, [⟨1, [0, 1]⟩, ⟨2, [3, 4]⟩]⟩

/-- The state after `initializeRAG` over `[apple]` and then over `[milk, greenApple]`
with `planeExtractor`: the id 1 is stored with two embeddings. -/
def driftState : RagState ℝ :=
  ⟨some planeExtractor, [⟨1, [0, 1]⟩, ⟨2, [3, 4]⟩, ⟨1, [1, 0]⟩]⟩

/-- The state after `initializeRAG` over `[apple, milk]` with `raggedExtractor`. -/
def raggedState : RagState ℝ :=
  ⟨some raggedExtractor, [⟨1, [1, 0]⟩, ⟨2, [1]⟩]⟩

/-- The state after two `initializeRAG` calls over `[apple, milk]` with
`unitExtractor`. -/
def rebuiltState : RagState ℝ :=
  ⟨some unitExtractor, [⟨1, [1]⟩, ⟨2, [1]⟩, ⟨1, [1]⟩, ⟨2, [1]⟩]⟩

end ExampleStates

/-! ## `cosineSimilarity` -/

section CosineLoop
variable {α : Type} [LinearOrderedField α]

theorem foldl_loopBody (a b : List α) (n : Nat) (ha : n ≤ a.length) (hb : n ≤ b.length) :
    (List.range n).foldl (loopBody a b) ⟨some 0, some 0, some 0⟩ =
      ⟨some (Finset.sum (Finset.range n) fun i => a.getD i 0 * b.getD i 0),
       some (Finset.sum (Finset.range n) fun i => a.getD i 0 * a.getD i 0),
       some (Finset.sum (Finset.range n) fun i => b.getD i 0 * b.getD i 0)⟩ := by
  induction n with
  | zero => simp
  | succ n ih =>
    have h1 : n < a.length := by omega
    have h2 : n < b.length := by omega
    rw [List.range_succ, List.foldl_append, ih (by omega) (by omega)]
    simp [loopBody, Finset.sum_range_succ, JSNumber.add, JSNumber.mul, List.getElem?_eq_getElem,
      List.getD_eq_getElem, h1, h2]

theorem cosineLoop_eq (a b : List α) (h : a.length ≤ b.length) :
    cosineLoop a b =
      ⟨some (Finset.sum (Finset.range a.length) fun i => a.getD i 0 * b.getD i 0),
       some (Finset.sum (Finset.range a.length) fun i => a.getD i 0 * a.getD i 0),
       some (Finset.sum (Finset.range a.length) fun i => b.getD i 0 * b.getD i 0)⟩ :=
  foldl_loopBody a b a.length le_rfl h

theorem foldl_loopBody_nan (a b : List α) (n : Nat) (hb : b.length < n) (s : LoopState α) :
    ((List.range n).foldl (loopBody a b) s).dotProduct = none ∧
    ((List.range n).foldl (loopBody a b) s).magnitudeB = none := by
  induction n with
  | zero => omega
  | succ n ih =>
    rw [List.range_succ, List.foldl_append]
    by_cases h : b.length < n
    · obtain ⟨h1, h2⟩ := ih h
      simp [loopBody, h1, h2, JSNumber.add]
    · have hn : b.length = n := by omega
      have : b[n]? = none := by simp [hn]
      simp [loopBody, this, JSNumber.add, JSNumber.mul]

end CosineLoop

section CosineValue
variable {α : Type} [LinearOrderedField α]

theorem sum_sq_nonneg (a : List α) (n : Nat) :
    0 ≤ Finset.sum (Finset.range n) fun i => a.getD i 0 * a.getD i 0 :=
  Finset.sum_nonneg fun _ _ => mul_self_nonneg _

theorem sqrt_some_nonneg (sqrt : α → α) (x : α) (h : 0 ≤ x) :
    JSNumber.sqrt sqrt (some x) = some (sqrt x) := by
  simp [JSNumber.sqrt, not_lt.mpr h]

/-- The value of `cosineSimilarity` when `b` has at least the length of `a`. -/
theorem cosineSimilarity_eq (sqrt : α → α) (a b : List α) (h : a.length ≤ b.length) :
    cosineSimilarity sqrt a b =
      if sqrt (Finset.sum (Finset.range a.length) fun i => a.getD i 0 * a.getD i 0) = 0 ∨
          sqrt (Finset.sum (Finset.range a.length) fun i => b.getD i 0 * b.getD i 0) = 0
      then some 0
      else some ((Finset.sum (Finset.range a.length) fun i => a.getD i 0 * b.getD i 0) /
        (sqrt (Finset.sum (Finset.range a.length) fun i => a.getD i 0 * a.getD i 0) *
          sqrt (Finset.sum (Finset.range a.length) fun i => b.getD i 0 * b.getD i 0))) := by
  simp only [cosineSimilarity, cosineLoop_eq a b h,
    sqrt_some_nonneg sqrt _ (sum_sq_nonneg a _), sqrt_some_nonneg sqrt _ (sum_sq_nonneg b _)]
  simp only [Option.some.injEq]
  split_ifs with h1
  · rfl
  · have hne : sqrt (Finset.sum (Finset.range a.length) fun i => a.getD i 0 * a.getD i 0) *
        sqrt (Finset.sum (Finset.range a.length) fun i => b.getD i 0 * b.getD i 0) ≠ 0 := by
      push_neg at h1
      exact mul_ne_zero h1.1 h1.2
    simp only [JSNumber.div, JSNumber.mul, hne, if_false]

/-- With `b` at least as long as `a`, `cosineSimilarity` returns a number, not `NaN`. -/
theorem cosineSimilarity_isSome (sqrt : α → α) (a b : List α) (h : a.length ≤ b.length) :
    ∃ s, cosineSimilarity sqrt a b = some s := by
  rw [cosineSimilarity_eq sqrt a b h]
  split_ifs
  · exact ⟨_, rfl⟩
  · exact ⟨_, rfl⟩

/-- The division of `cosineSimilarity` is never by zero: when the guard of line 18
does not return, the divisor is `NaN` or a number other than zero. -/
theorem cosineSimilarity_divisor_ne_zero (sqrt : α → α) (a b : List α)
    (h : ¬ (JSNumber.sqrt sqrt (cosineLoop a b).magnitudeA = some 0 ∨
      JSNumber.sqrt sqrt (cosineLoop a b).magnitudeB = some 0)) :
    JSNumber.mul (JSNumber.sqrt sqrt (cosineLoop a b).magnitudeA)
      (JSNumber.sqrt sqrt (cosineLoop a b).magnitudeB) ≠ some 0 := by
  push_neg at h
  obtain ⟨h1, h2⟩ := h
  cases hA : JSNumber.sqrt sqrt (cosineLoop a b).magnitudeA with
  | none => simp [JSNumber.mul]
  | some x =>
    cases hB : JSNumber.sqrt sqrt (cosineLoop a b).magnitudeB with
    | none => simp [JSNumber.mul]
    | some y =>
      rw [hA] at h1
      rw [hB] at h2
      simp only [JSNumber.mul, ne_eq, Option.some.injEq, mul_eq_zero, not_or]
      exact ⟨fun e => h1 (by rw [e]), fun e => h2 (by rw [e])⟩

theorem getD_take_of_lt (b : List α) (n i : Nat) (h : i < n) :
    (b.take n).getD i 0 = b.getD i 0 := by
  simp [List.getD_eq_getElem?_getD, List.getElem?_take, h]

/-- Components of `b` beyond the length of `a` are never read. -/
theorem cosineSimilarity_take (sqrt : α → α) (a b : List α) (h : a.length ≤ b.length) :
    cosineSimilarity sqrt a b = cosineSimilarity sqrt a (b.take a.length) := by
  rw [cosineSimilarity_eq sqrt a b h,
    cosineSimilarity_eq sqrt a (b.take a.length) (by simp [h])]
  have e1 : (Finset.sum (Finset.range a.length) fun i => a.getD i 0 * (b.take a.length).getD i 0)
      = Finset.sum (Finset.range a.length) fun i => a.getD i 0 * b.getD i 0 :=
    Finset.sum_congr rfl fun i hi => by
      rw [getD_take_of_lt b _ i (Finset.mem_range.mp hi)]
  have e2 : (Finset.sum (Finset.range a.length)
      fun i => (b.take a.length).getD i 0 * (b.take a.length).getD i 0)
      = Finset.sum (Finset.range a.length) fun i => b.getD i 0 * b.getD i 0 :=
    Finset.sum_congr rfl fun i hi => by
      rw [getD_take_of_lt b _ i (Finset.mem_range.mp hi)]
  rw [e1, e2]

/-- With `a` longer than `b`, `cosineSimilarity` is `0` or `NaN`. -/
theorem cosineSimilarity_longer (sqrt : α → α) (a b : List α) (h : b.length < a.length) :
    cosineSimilarity sqrt a b = some 0 ∨ cosineSimilarity sqrt a b = none := by
  obtain ⟨h1, h2⟩ := foldl_loopBody_nan a b a.length h ⟨some 0, some 0, some 0⟩
  simp only [cosineSimilarity, cosineLoop, h1, h2]
  split_ifs
  · exact Or.inl rfl
  · exact Or.inr (by simp [JSNumber.div])

end CosineValue

section CosineBounds
variable {α : Type} [LinearOrderedField α]

theorem getD_eq_zero_of_forall (a : List α) (h : ∀ x ∈ a, x = 0) (i : Nat) : a.getD i 0 = 0 := by
  by_cases hi : i < a.length
  · rw [List.getD_eq_getElem a 0 hi]
    exact h _ (List.getElem_mem hi)
  · rw [List.getD_eq_default a 0 (not_lt.mp hi)]

/-- C3: for vectors `a` and `b` of equal length, if every component of `a` is zero or
every component of `b` is zero, `cosineSimilarity a b` returns the number `0`; here
`Math.sqrt` maps `0` to `0`. -/
theorem cosineSimilarity_zero (sqrt : α → α) (hsqrt : sqrt 0 = 0) (a b : List α)
    (hlen : a.length = b.length) (hz : (∀ x ∈ a, x = 0) ∨ (∀ x ∈ b, x = 0)) :
    cosineSimilarity sqrt a b = some 0 := by
  rw [cosineSimilarity_eq sqrt a b hlen.le]
  apply if_pos
  rcases hz with hz | hz
  · left
    rw [Finset.sum_eq_zero, hsqrt]
    intro i _
    rw [getD_eq_zero_of_forall a hz i, mul_zero]
  · right
    rw [Finset.sum_eq_zero, hsqrt]
    intro i _
    rw [getD_eq_zero_of_forall b hz i, mul_zero]

/-- A witness of `cosineSimilarity_zero`: the zero vector against `[3, 4]`. -/
theorem cosineSimilarity_zero_witness :
    cosineSimilarity Real.sqrt [0, 0] [3, 4] = some 0 :=
  cosineSimilarity_zero Real.sqrt Real.sqrt_zero [0, 0] [3, 4] rfl (Or.inl (by simp))

/-- C10: over the real numbers with `Real.sqrt`, for vectors of equal length
`cosineSimilarity` returns a number of the interval `[-1, 1]`. -/
theorem cosineSimilarity_bounds (a b : List ℝ) (hlen : a.length = b.length) :
    ∃ s, cosineSimilarity Real.sqrt a b = some s ∧ -1 ≤ s ∧ s ≤ 1 := by
  rw [cosineSimilarity_eq Real.sqrt a b hlen.le]
  split_ifs with h
  · exact ⟨0, rfl, by norm_num, by norm_num⟩
  · refine ⟨_, rfl, ?_⟩
    push_neg at h
    set D := Finset.sum (Finset.range a.length) fun i => a.getD i 0 * b.getD i 0 with hD
    set A := Finset.sum (Finset.range a.length) fun i => a.getD i 0 * a.getD i 0 with hA
    set B := Finset.sum (Finset.range a.length) fun i => b.getD i 0 * b.getD i 0 with hB
    have hA0 : 0 ≤ A := sum_sq_nonneg a _
    have hpA : 0 < Real.sqrt A := lt_of_le_of_ne (Real.sqrt_nonneg A) (Ne.symm h.1)
    have hpB : 0 < Real.sqrt B := lt_of_le_of_ne (Real.sqrt_nonneg B) (Ne.symm h.2)
    have hpos : 0 < Real.sqrt A * Real.sqrt B := mul_pos hpA hpB
    have hcs : D ^ 2 ≤ A * B := by
      have := Finset.sum_mul_sq_le_sq_mul_sq (Finset.range a.length)
        (fun i => a.getD i 0) (fun i => b.getD i 0)
      simpa [hD, hA, hB, sq] using this
    have habs : |D| ≤ Real.sqrt A * Real.sqrt B := by
      rw [← Real.sqrt_mul hA0 B]
      exact Real.abs_le_sqrt hcs
    obtain ⟨hlo, hhi⟩ := abs_le.mp habs
    constructor
    · rw [le_div_iff₀ hpos]
      linarith
    · rw [div_le_one hpos]
      exact hhi

/-- A witness of `cosineSimilarity_bounds`: the vectors `[3, 4]` and `[4, 3]`. -/
theorem cosineSimilarity_bounds_witness :
    ∃ s, cosineSimilarity Real.sqrt [3, 4] [4, 3] = some s ∧ -1 ≤ s ∧ s ≤ 1 :=
  cosineSimilarity_bounds [3, 4] [4, 3] rfl

end CosineBounds

/-! ## Sorting and slicing -/

section Sorting

theorem orderedInsert_pairwise {β : Type} (r : β → β → Prop) [DecidableRel r] (a : β) :
    ∀ (l : List β), l.Pairwise r → (∀ b ∈ l, r a b ∨ r b a) →
      (∀ b ∈ l, ∀ c ∈ l, r a b → r b c → r a c) →
      (l.orderedInsert r a).Pairwise r := by
  intro l
  induction l with
  | nil => intro _ _ _; simp
  | cons b l ih =>
    intro hp htot htrans
    rw [List.pairwise_cons] at hp
    by_cases hab : r a b
    · rw [List.orderedInsert, if_pos hab, List.pairwise_cons]
      refine ⟨?_, List.pairwise_cons.mpr hp⟩
      intro c hc
      rcases List.mem_cons.mp hc with rfl | hc
      · exact hab
      · exact htrans b (List.mem_cons_self _ _) c (List.mem_cons_of_mem _ hc) hab (hp.1 c hc)
    · rw [List.orderedInsert, if_neg hab, List.pairwise_cons]
      refine ⟨?_, ih hp.2 (fun c hc => htot c (List.mem_cons_of_mem _ hc))
        (fun c hc d hd => htrans c (List.mem_cons_of_mem _ hc) d (List.mem_cons_of_mem _ hd))⟩
      intro c hc
      rcases (List.mem_orderedInsert r).mp hc with rfl | hc
      · exact (htot b (List.mem_cons_self _ _)).resolve_left hab
      · exact hp.1 c hc

/-- Insertion sort returns a sorted list as soon as the relation is total and
transitive on the elements of the list. -/
theorem insertionSort_pairwise {β : Type} (r : β → β → Prop) [DecidableRel r] :
    ∀ (l : List β), (∀ a ∈ l, ∀ b ∈ l, r a b ∨ r b a) →
      (∀ a ∈ l, ∀ b ∈ l, ∀ c ∈ l, r a b → r b c → r a c) →
      (l.insertionSort r).Pairwise r := by
  intro l
  induction l with
  | nil => intro _ _; simp
  | cons a l ih =>
    intro htot htrans
    rw [List.insertionSort]
    apply orderedInsert_pairwise
    · exact ih (fun b hb c hc => htot b (List.mem_cons_of_mem _ hb) c (List.mem_cons_of_mem _ hc))
        (fun b hb c hc d hd => htrans b (List.mem_cons_of_mem _ hb) c (List.mem_cons_of_mem _ hc)
          d (List.mem_cons_of_mem _ hd))
    · intro b hb
      exact htot a (List.mem_cons_self _ _) b
        (List.mem_cons_of_mem _ ((List.mem_insertionSort r).mp hb))
    · intro b hb c hc
      exact htrans a (List.mem_cons_self _ _) b
        (List.mem_cons_of_mem _ ((List.mem_insertionSort r).mp hb)) c
        (List.mem_cons_of_mem _ ((List.mem_insertionSort r).mp hc))

theorem slice0_eq_take {β : Type} (arr : List β) (k : Int) :
    ∃ n, slice0 arr k = arr.take n := by
  unfold slice0
  split_ifs
  · exact ⟨_, rfl⟩
  · exact ⟨_, rfl⟩

theorem slice0_length {β : Type} (arr : List β) (k : Int) :
    ((slice0 arr k).length : Int) =
      if k < 0 then max ((arr.length : Int) + k) 0 else min k arr.length := by
  unfold slice0
  split_ifs with h
  · rw [List.length_take]
    omega
  · rw [List.length_take]
    omega

theorem indexOf_of_mem (arr : List Nat) (x : Nat) (h : x ∈ arr) :
    indexOf arr x = (arr.indexOf x : Int) := by
  simp [indexOf, h]

theorem isPositive_int_sub (x y : Int) :
    JSNumber.isPositive (some (x - y) : JSNumber Int) = false ↔ x ≤ y := by
  simp [JSNumber.isPositive]

theorem jsSort_perm {β γ : Type} [Zero γ] [LT γ] [DecidableRel (fun (x y : γ) => x < y)]
    (comparefn : β → β → JSNumber γ) (l : List β) : (jsSort comparefn l).Perm l :=
  List.perm_insertionSort _ l

theorem jsSort_length {β γ : Type} [Zero γ] [LT γ] [DecidableRel (fun (x y : γ) => x < y)]
    (comparefn : β → β → JSNumber γ) (l : List β) : (jsSort comparefn l).length = l.length :=
  List.length_insertionSort _ l

/-- The final sort of `searchProducts` orders by the position of the id in `topIds`. -/
theorem jsSort_indexOf_pairwise (t : List Nat) (l : List Product) :
    (jsSort (fun a b => (some (indexOf t a.id - indexOf t b.id) : JSNumber Int)) l).Pairwise
      (fun a b => indexOf t a.id ≤ indexOf t b.id) := by
  have h := insertionSort_pairwise
    (fun (x y : Product) =>
      JSNumber.isPositive (some (indexOf t x.id - indexOf t y.id) : JSNumber Int) = false) l
    (fun a _ b _ => by
      simp only [isPositive_int_sub]
      exact le_total _ _)
    (fun a _ b _ c _ => by
      simp only [isPositive_int_sub]
      exact le_trans)
  exact h.imp (fun {a b} hab => (isPositive_int_sub _ _).mp hab)

end Sorting

/-! ## The ranking of `searchProducts` -/

section RankOrder
variable {α : Type} [LinearOrderedField α]

theorem isPositive_sub (u v : α) :
    JSNumber.isPositive (JSNumber.sub (some v) (some u)) = false ↔ v ≤ u := by
  simp [JSNumber.isPositive, JSNumber.sub]

theorem mem_scores (sqrt : α → α) (pe : List (Entry α)) (q : List α) (x : Scored α) :
    x ∈ scores sqrt pe q ↔
      ∃ e ∈ pe, x = ⟨e.id, cosineSimilarity sqrt q e.embedding⟩ := by
  simp only [scores, List.mem_map]
  constructor
  · rintro ⟨e, he, rfl⟩
    exact ⟨e, he, rfl⟩
  · rintro ⟨e, he, rfl⟩
    exact ⟨e, he, rfl⟩

theorem scores_isSome (sqrt : α → α) (pe : List (Entry α)) (q : List α)
    (hdim : ∀ e ∈ pe, q.length ≤ e.embedding.length) (x : Scored α)
    (hx : x ∈ scores sqrt pe q) : ∃ u, x.score = some u := by
  obtain ⟨e, he, rfl⟩ := (mem_scores sqrt pe q x).mp hx
  exact cosineSimilarity_isSome sqrt q e.embedding (hdim e he)

/-- Without a `NaN` score, the sort of line 71 puts the scores in non-increasing
order. -/
theorem sorted_scores_pairwise (sqrt : α → α) (pe : List (Entry α)) (q : List α)
    (hdim : ∀ e ∈ pe, q.length ≤ e.embedding.length) :
    (jsSort (fun (a b : Scored α) => JSNumber.sub b.score a.score)
      (scores sqrt pe q)).Pairwise (fun x y => JSNumber.ge x.score y.score) := by
  have hsome := scores_isSome sqrt pe q hdim
  have h := insertionSort_pairwise
    (fun (x y : Scored α) => JSNumber.isPositive (JSNumber.sub y.score x.score) = false)
    (scores sqrt pe q)
    (fun a ha b hb => by
      obtain ⟨u, hu⟩ := hsome a ha
      obtain ⟨v, hv⟩ := hsome b hb
      simp only [hu, hv, isPositive_sub]
      exact le_total _ _)
    (fun a ha b hb c hc => by
      obtain ⟨u, hu⟩ := hsome a ha
      obtain ⟨v, hv⟩ := hsome b hb
      obtain ⟨w, hw⟩ := hsome c hc
      simp only [hu, hv, hw, isPositive_sub]
      exact fun h1 h2 => le_trans h2 h1)
  refine List.Pairwise.imp_of_mem ?_ h
  intro a b ha hb hab
  obtain ⟨u, hu⟩ := hsome a ((List.mem_insertionSort _).mp ha)
  obtain ⟨v, hv⟩ := hsome b ((List.mem_insertionSort _).mp hb)
  rw [hu, hv, isPositive_sub] at hab
  exact ⟨u, v, hu, hv, hab⟩

/-- When entries with equal ids hold equal embeddings, the score recorded for an
entry is the score stored for its id. -/
theorem storedScore_of_mem (sqrt : α → α) (pe : List (Entry α)) (q : List α)
    (hfun : ∀ e ∈ pe, ∀ e' ∈ pe, e.id = e'.id → e.embedding = e'.embedding)
    (e : Entry α) (he : e ∈ pe) :
    storedScore sqrt pe q e.id = cosineSimilarity sqrt q e.embedding := by
  unfold storedScore
  cases hf : pe.find? (fun e' => decide (e'.id = e.id)) with
  | none =>
    have := List.find?_eq_none.mp hf e he
    simp at this
  | some e' =>
    have hmem : e' ∈ pe := List.mem_of_find?_eq_some hf
    have hid : e'.id = e.id := by simpa using List.find?_some hf
    simp only
    rw [hfun e' hmem e he hid]

theorem pairwise_rel_of_indexOf_le {β : Type} [DecidableEq β] (R : β → β → Prop) (t : List β)
    (hp : t.Pairwise R) (hrefl : ∀ a ∈ t, R a a) (a b : β) (ha : a ∈ t) (hb : b ∈ t)
    (h : t.indexOf a ≤ t.indexOf b) : R a b := by
  rcases Nat.lt_or_eq_of_le h with hlt | heq
  · have hia : t.indexOf a < t.length := List.indexOf_lt_length.mpr ha
    have hib : t.indexOf b < t.length := List.indexOf_lt_length.mpr hb
    have := List.pairwise_iff_getElem.mp hp _ _ hia hib hlt
    rwa [List.getElem_indexOf hia, List.getElem_indexOf hib] at this
  · have : a = b := (List.indexOf_inj ha hb).mp heq
    subst this
    exact hrefl a ha

/-- The ids of `topIds` are in non-increasing order of their stored score. -/
theorem topIds_pairwise (sqrt : α → α) (pe : List (Entry α)) (q : List α) (k : Int)
    (hfun : ∀ e ∈ pe, ∀ e' ∈ pe, e.id = e'.id → e.embedding = e'.embedding)
    (hdim : ∀ e ∈ pe, q.length ≤ e.embedding.length) :
    (topIds sqrt pe q k).Pairwise
      (fun a b => JSNumber.ge (storedScore sqrt pe q a) (storedScore sqrt pe q b)) := by
  unfold topIds
  obtain ⟨n, hn⟩ := slice0_eq_take
    (jsSort (fun (a b : Scored α) => JSNumber.sub b.score a.score) (scores sqrt pe q)) k
  rw [hn, List.pairwise_map]
  have hs := (sorted_scores_pairwise sqrt pe q hdim).sublist (List.take_sublist n _)
  refine List.Pairwise.imp_of_mem ?_ hs
  intro a b ha hb hab
  have hmem : ∀ x ∈ List.take n (jsSort (fun (a b : Scored α) => JSNumber.sub b.score a.score)
      (scores sqrt pe q)), storedScore sqrt pe q x.id = x.score := by
    intro x hx
    have hx' : x ∈ scores sqrt pe q :=
      (List.mem_insertionSort _).mp (List.mem_of_mem_take hx)
    obtain ⟨e, he, rfl⟩ := (mem_scores sqrt pe q x).mp hx'
    exact storedScore_of_mem sqrt pe q hfun e he
  rw [hmem a ha, hmem b hb]
  exact hab

theorem topIds_storedScore_refl (sqrt : α → α) (pe : List (Entry α)) (q : List α) (k : Int)
    (hfun : ∀ e ∈ pe, ∀ e' ∈ pe, e.id = e'.id → e.embedding = e'.embedding)
    (hdim : ∀ e ∈ pe, q.length ≤ e.embedding.length) (a : Nat)
    (ha : a ∈ topIds sqrt pe q k) :
    JSNumber.ge (storedScore sqrt pe q a) (storedScore sqrt pe q a) := by
  unfold topIds at ha
  obtain ⟨x, hx, rfl⟩ := List.mem_map.mp ha
  obtain ⟨n, hn⟩ := slice0_eq_take
    (jsSort (fun (a b : Scored α) => JSNumber.sub b.score a.score) (scores sqrt pe q)) k
  rw [hn] at hx
  have hx' : x ∈ scores sqrt pe q :=
    (List.mem_insertionSort _).mp (List.mem_of_mem_take hx)
  obtain ⟨e, he, rfl⟩ := (mem_scores sqrt pe q x).mp hx'
  obtain ⟨u, hu⟩ := cosineSimilarity_isSome sqrt q e.embedding (hdim e he)
  rw [storedScore_of_mem sqrt pe q hfun e he]
  exact ⟨u, u, hu, hu, le_rfl⟩

theorem mem_rankProducts (sqrt : α → α) (pe : List (Entry α)) (q : List α)
    (products : List Product) (k : Int) (p : Product) :
    p ∈ rankProducts sqrt pe q products k ↔ p ∈ products ∧ p.id ∈ topIds sqrt pe q k := by
  unfold rankProducts
  simp only
  rw [(jsSort_perm _ _).mem_iff, List.mem_filter]
  simp

/-- The result of the ranking is in non-increasing order of stored score. -/
theorem rankProducts_pairwise (sqrt : α → α) (pe : List (Entry α)) (q : List α)
    (products : List Product) (k : Int)
    (hfun : ∀ e ∈ pe, ∀ e' ∈ pe, e.id = e'.id → e.embedding = e'.embedding)
    (hdim : ∀ e ∈ pe, q.length ≤ e.embedding.length) :
    (rankProducts sqrt pe q products k).Pairwise
      (fun p p' => JSNumber.ge (storedScore sqrt pe q p.id) (storedScore sqrt pe q p'.id)) := by
  have hmem := mem_rankProducts sqrt pe q products k
  have hsorted : (rankProducts sqrt pe q products k).Pairwise
      (fun a b => indexOf (topIds sqrt pe q k) a.id ≤ indexOf (topIds sqrt pe q k) b.id) :=
    jsSort_indexOf_pairwise (topIds sqrt pe q k) _
  refine List.Pairwise.imp_of_mem ?_ hsorted
  intro a b ha hb hab
  have ha' := ((hmem a).mp ha).2
  have hb' := ((hmem b).mp hb).2
  rw [indexOf_of_mem _ _ ha', indexOf_of_mem _ _ hb'] at hab
  exact pairwise_rel_of_indexOf_le _ _ (topIds_pairwise sqrt pe q k hfun hdim)
    (topIds_storedScore_refl sqrt pe q k hfun hdim) a.id b.id ha' hb' (by exact_mod_cast hab)

end RankOrder

section RankStability
variable {α : Type} [LinearOrderedField α]

theorem pair_sublist_of_lt {β : Type} :
    ∀ (l : List β) (i j : Nat) (hij : i < j) (hj : j < l.length),
      List.Sublist [l[i], l[j]] l := by
  intro l
  induction l with
  | nil => intro i j _ hj; simp at hj
  | cons x l ih =>
    intro i j hij hj
    cases j with
    | zero => omega
    | succ j =>
      cases i with
      | zero =>
        simp only [List.getElem_cons_zero, List.getElem_cons_succ]
        exact List.Sublist.cons₂ _ (List.singleton_sublist.mpr (List.getElem_mem _))
      | succ i =>
        simp only [List.getElem_cons_succ]
        exact List.Sublist.cons _
          (ih i j (by omega) (by simpa using hj))

theorem pair_sublist_take {β : Type} (a b : β) :
    ∀ (l : List β) (n : Nat), l.Nodup → List.Sublist [a, b] l → b ∈ l.take n → List.Sublist [a, b] (l.take n) := by
  intro l
  induction l with
  | nil => intro n _ h _; simp at h
  | cons x l ih =>
    intro n hnd hsub hb
    cases n with
    | zero => simp at hb
    | succ n =>
      rw [List.take_succ_cons] at hb ⊢
      rw [List.nodup_cons] at hnd
      cases hsub with
      | cons _ h =>
        have hbl : b ∈ l := h.subset (by simp)
        rcases List.mem_cons.mp hb with rfl | hb'
        · exact absurd hbl hnd.1
        · exact List.Sublist.cons _ (ih n hnd.2 h hb')
      | cons₂ _ h =>
        have hbl : b ∈ l := h.subset (by simp)
        rcases List.mem_cons.mp hb with rfl | hb'
        · exact absurd hbl hnd.1
        · exact List.Sublist.cons₂ _ (List.singleton_sublist.mpr hb')

theorem indexOf_lt_of_pair_sublist {β : Type} [DecidableEq β] (a b : β) :
    ∀ (t : List β), t.Nodup → List.Sublist [a, b] t → t.indexOf a < t.indexOf b := by
  intro t
  induction t with
  | nil => intro _ h; simp at h
  | cons x t ih =>
    intro hnd hsub
    rw [List.nodup_cons] at hnd
    cases hsub with
    | cons _ h =>
      have ha : a ∈ t := h.subset (by simp)
      have hb : b ∈ t := h.subset (by simp)
      have hxa : x ≠ a := fun e => hnd.1 (e ▸ ha)
      have hxb : x ≠ b := fun e => hnd.1 (e ▸ hb)
      rw [List.indexOf_cons_ne _ hxa, List.indexOf_cons_ne _ hxb]
      exact Nat.succ_lt_succ (ih hnd.2 h)
    | cons₂ _ h =>
      have hb : b ∈ t := h.subset (by simp)
      have hab : a ≠ b := fun e => hnd.1 (e ▸ hb)
      rw [List.indexOf_cons_self, List.indexOf_cons_ne _ hab]
      exact Nat.succ_pos _

theorem scores_map_id (sqrt : α → α) (pe : List (Entry α)) (q : List α) :
    (scores sqrt pe q).map (fun s => s.id) = pe.map (fun e => e.id) := by
  simp [scores, Function.comp_def]

theorem scores_length (sqrt : α → α) (pe : List (Entry α)) (q : List α) :
    (scores sqrt pe q).length = pe.length := by
  simp [scores]

theorem sorted_ids_perm (sqrt : α → α) (pe : List (Entry α)) (q : List α) :
    ((jsSort (fun (a b : Scored α) => JSNumber.sub b.score a.score)
      (scores sqrt pe q)).map (fun s => s.id)).Perm (pe.map (fun e => e.id)) := by
  rw [← scores_map_id sqrt pe q]
  exact (jsSort_perm _ _).map _

theorem topIds_sublist (sqrt : α → α) (pe : List (Entry α)) (q : List α) (k : Int) :
    ∃ n, topIds sqrt pe q k =
      ((jsSort (fun (a b : Scored α) => JSNumber.sub b.score a.score)
        (scores sqrt pe q)).map (fun s => s.id)).take n := by
  obtain ⟨n, hn⟩ := slice0_eq_take
    (jsSort (fun (a b : Scored α) => JSNumber.sub b.score a.score) (scores sqrt pe q)) k
  exact ⟨n, by rw [topIds, hn, List.map_take]⟩

theorem topIds_nodup (sqrt : α → α) (pe : List (Entry α)) (q : List α) (k : Int)
    (hidx : (pe.map (fun e => e.id)).Nodup) : (topIds sqrt pe q k).Nodup := by
  obtain ⟨n, hn⟩ := topIds_sublist sqrt pe q k
  rw [hn]
  exact ((sorted_ids_perm sqrt pe q).nodup_iff.mpr hidx).sublist (List.take_sublist _ _)

theorem isPositive_sub_self (x : JSNumber α) :
    JSNumber.isPositive (JSNumber.sub x x) = false := by
  cases x <;> simp [JSNumber.isPositive, JSNumber.sub]

/-- Stability of the sort of line 71, read on `topIds`: of two index entries with the
same score, the id of the earlier one precedes the id of the later one. -/
theorem topIds_indexOf_lt (sqrt : α → α) (pe : List (Entry α)) (q : List α) (k : Int)
    (hidx : (pe.map (fun e => e.id)).Nodup) (i j : Nat) (hij : i < j) (hj : j < pe.length)
    (htie : cosineSimilarity sqrt q pe[i].embedding = cosineSimilarity sqrt q pe[j].embedding)
    (hmem : pe[j].id ∈ topIds sqrt pe q k) :
    (topIds sqrt pe q k).indexOf pe[i].id < (topIds sqrt pe q k).indexOf pe[j].id := by
  have hlen := scores_length sqrt pe q
  have hpair : List.Sublist [(scores sqrt pe q)[i], (scores sqrt pe q)[j]] (scores sqrt pe q) :=
    pair_sublist_of_lt _ i j hij (by omega)
  have hr : JSNumber.isPositive (JSNumber.sub (scores sqrt pe q)[j].score
      (scores sqrt pe q)[i].score) = false := by
    simp only [scores, List.getElem_map]
    rw [htie]
    exact isPositive_sub_self _
  have hsorted := List.pair_sublist_insertionSort
    (r := fun (x y : Scored α) => JSNumber.isPositive (JSNumber.sub y.score x.score) = false)
    hr hpair
  have hids := hsorted.map (fun s => s.id)
  simp only [List.map_cons, List.map_nil] at hids
  have e1 : (scores sqrt pe q)[i].id = pe[i].id := by simp [scores]
  have e2 : (scores sqrt pe q)[j].id = pe[j].id := by simp [scores]
  rw [e1, e2] at hids
  obtain ⟨n, hn⟩ := topIds_sublist sqrt pe q k
  have hnd := (sorted_ids_perm sqrt pe q).nodup_iff.mpr hidx
  rw [hn] at hmem ⊢
  exact indexOf_lt_of_pair_sublist _ _ _ (hnd.sublist (List.take_sublist _ _))
    (pair_sublist_take _ _ _ n hnd hids hmem)

end RankStability

section SearchLength
variable {α : Type} [LinearOrderedField α]

theorem contains_iff_mem (l : List Nat) (x : Nat) : l.contains x = true ↔ x ∈ l := by
  simp

theorem rankProducts_nil (sqrt : α → α) (q : List α) (products : List Product) (k : Int) :
    rankProducts sqrt [] q products k = [] := by
  have h : topIds sqrt ([] : List (Entry α)) q k = [] := by
    simp [topIds, scores, jsSort, slice0]
  simp [rankProducts, h, jsSort]

/-- With the extractor loaded and the query embedded, `searchProducts` returns the
ranking. -/
theorem searchProducts_eq_rank (sqrt : α → α) (st : RagState α) (extractor : Extractor α)
    (query : String) (q : List α) (products : List Product) (k : Int)
    (hext : st.extractor = some extractor) (hq : extractor query = some q) :
    searchProducts sqrt st query products k =
      some (rankProducts sqrt st.productEmbeddings q products k) := by
  unfold searchProducts
  rw [hext]
  simp only
  split_ifs with h
  · rw [List.length_eq_zero.mp h, rankProducts_nil]
  · rw [hq]

theorem mem_topIds (sqrt : α → α) (pe : List (Entry α)) (q : List α) (k : Int) (x : Nat)
    (hx : x ∈ topIds sqrt pe q k) : x ∈ pe.map (fun e => e.id) := by
  obtain ⟨n, hn⟩ := topIds_sublist sqrt pe q k
  rw [hn] at hx
  exact (sorted_ids_perm sqrt pe q).mem_iff.mp (List.mem_of_mem_take hx)

theorem topIds_length (sqrt : α → α) (pe : List (Entry α)) (q : List α) (k : Int) :
    ((topIds sqrt pe q k).length : Int) =
      if k < 0 then max ((pe.length : Int) + k) 0 else min k pe.length := by
  rw [topIds, List.length_map, slice0_length, jsSort_length, scores_length]

/-- The number of returned items, for an index and a catalog with unique ids where
every indexed id is in the catalog. -/
theorem rankProducts_length (sqrt : α → α) (pe : List (Entry α)) (q : List α)
    (products : List Product) (k : Int)
    (hcat : (products.map (fun p => p.id)).Nodup)
    (hidx : (pe.map (fun e => e.id)).Nodup)
    (hsub : ∀ e ∈ pe, e.id ∈ products.map (fun p => p.id)) :
    ((rankProducts sqrt pe q products k).length : Int) =
      if k < 0 then max ((pe.length : Int) + k) 0 else min k pe.length := by
  rw [← topIds_length sqrt pe q k]
  have hlen : (rankProducts sqrt pe q products k).length =
      ((products.filter (fun p => (topIds sqrt pe q k).contains p.id)).map
        (fun p => p.id)).length := by
    rw [List.length_map]
    exact jsSort_length _ _
  have hnd : ((products.filter (fun p => (topIds sqrt pe q k).contains p.id)).map
      (fun p => p.id)).Nodup := hcat.sublist ((List.filter_sublist _).map _)
  have hperm : ((products.filter (fun p => (topIds sqrt pe q k).contains p.id)).map
      (fun p => p.id)).Perm (topIds sqrt pe q k) := by
    rw [List.perm_ext_iff_of_nodup hnd (topIds_nodup sqrt pe q k hidx)]
    intro x
    simp only [List.mem_map, List.mem_filter, contains_iff_mem]
    constructor
    · rintro ⟨p, ⟨_, hp⟩, rfl⟩
      exact hp
    · intro hx
      obtain ⟨e, he, rfl⟩ := List.mem_map.mp (mem_topIds sqrt pe q k x hx)
      obtain ⟨p, hp, hpe⟩ := List.mem_map.mp (hsub e he)
      exact ⟨p, ⟨hp, by rw [hpe]; exact hx⟩, hpe⟩
  rw [hlen, hperm.length_eq]

end SearchLength

/-! ## `initializeRAG` and strings -/

section Initialization
variable {α : Type}

theorem embedLoop_success (extractor : Extractor α) :
    ∀ (products : List Product) (outputs : List (List α)) (acc : List (Entry α)),
      List.Forall₂ (fun p v => extractor (textToEmbed p) = some v) products outputs →
      embedLoop extractor products acc = (true, acc ++ List.zipWith entryOf products outputs) := by
  intro products outputs acc h
  induction h generalizing acc with
  | nil => simp [embedLoop]
  | cons hp _ ih =>
    rw [embedLoop, hp]
    simp only
    rw [ih]
    simp [entryOf]

theorem embedLoop_failure (extractor : Extractor α) (p : Product) (post : List Product)
    (hfail : extractor (textToEmbed p) = none) :
    ∀ (pre : List Product) (outputs : List (List α)) (acc : List (Entry α)),
      List.Forall₂ (fun x v => extractor (textToEmbed x) = some v) pre outputs →
      embedLoop extractor (pre ++ p :: post) acc =
        (false, acc ++ List.zipWith entryOf pre outputs) := by
  intro pre outputs acc h
  induction h generalizing acc with
  | nil => simp [embedLoop, hfail]
  | cons hp _ ih =>
    rw [List.cons_append, embedLoop, hp]
    simp only
    rw [ih]
    simp [entryOf]

theorem zipWith_entryOf_ids (products : List Product) (outputs : List (List α))
    (h : products.length = outputs.length) :
    (List.zipWith entryOf products outputs).map (fun e => e.id) =
      products.map (fun p => p.id) := by
  induction products generalizing outputs with
  | nil => simp
  | cons p ps ih =>
    cases outputs with
    | nil => simp at h
    | cons v vs =>
      simp only [List.zipWith_cons_cons, List.map_cons, entryOf, List.cons.injEq, true_and]
      exact ih vs (by simpa using h)

end Initialization

section Strings

theorem includes_iff (s q : String) : includes s q = true ↔ occursIn q s := by
  unfold includes occursIn
  rw [List.any_eq_true]
  constructor
  · rintro ⟨t, ht, hpre⟩
    obtain ⟨pre, hpre'⟩ := (List.mem_tails _ _).mp ht
    obtain ⟨post, hpost⟩ := List.isPrefixOf_iff_prefix.mp hpre
    exact ⟨pre, post, by rw [← hpre', ← hpost, List.append_assoc]⟩
  · rintro ⟨pre, post, h⟩
    refine ⟨q.data ++ post, (List.mem_tails _ _).mpr ⟨pre, by rw [h, List.append_assoc]⟩, ?_⟩
    exact List.isPrefixOf_iff_prefix.mpr ⟨post, rfl⟩

theorem trim_eq_empty (value : String) (h : ∀ c ∈ value.data, isTrimmed c = true) :
    trim value = "" := by
  unfold trim
  have : value.data.dropWhile isTrimmed = [] := List.dropWhile_eq_nil_iff.mpr h
  rw [this]
  rfl

end Strings

/-! ## The example states are reachable -/

section Reachability

theorem indexedState_reachable :
    initializeRAG (some unitExtractor) [apple, milk] (RagState.initial ℝ) =
      (true, indexedState) := rfl

theorem duplicateState_reachable :
    initializeRAG none [apple]
      (initializeRAG (some unitExtractor) [apple] (RagState.initial ℝ)).2 =
      (true, duplicateState) := rfl

theorem readyState6_reachable :
    initializeRAG (some unitExtractor) catalog6 (RagState.initial ℝ) =
      (true, readyState6) := rfl

end Reachability

/-! ## Evaluation of the example states -/

section ExampleEvaluation

theorem planeExtractor_apple : planeExtractor (textToEmbed apple) = some [0, 1] := by
  unfold planeExtractor
  rw [if_pos rfl]

theorem planeExtractor_milk : planeExtractor (textToEmbed milk) = some [3, 4] := by
  unfold planeExtractor
  rw [if_neg (by decide), if_pos rfl]

theorem planeExtractor_greenApple : planeExtractor (textToEmbed greenApple) = some [1, 0] := by
  unfold planeExtractor
  rw [if_neg (by decide), if_neg (by decide)]

theorem planeExtractor_query : planeExtractor "apple" = some [1, 0] := by
  unfold planeExtractor
  rw [if_neg (by decide), if_neg (by decide)]

theorem raggedExtractor_apple : raggedExtractor (textToEmbed apple) = some [1, 0] := by
  unfold raggedExtractor
  rw [if_neg (by decide)]

theorem raggedExtractor_milk : raggedExtractor (textToEmbed milk) = some [1] := by
  unfold raggedExtractor
  rw [if_pos rfl]

theorem raggedExtractor_query : raggedExtractor "apple" = some [1, 0] := by
  unfold raggedExtractor
  rw [if_neg (by decide)]

theorem planeState_reachable :
    initializeRAG (some planeExtractor) [apple, milk] (RagState.initial ℝ) =
      (true, planeState) := by
  have h := embedLoop_success planeExtractor [apple, milk] [[0, 1], [3, 4]] []
    (List.Forall₂.cons planeExtractor_apple
      (List.Forall₂.cons planeExtractor_milk List.Forall₂.nil))
  simp only [initializeRAG, loadExtractor, RagState.initial, h]
  rfl

theorem driftState_reachable :
    initializeRAG none [milk, greenApple]
      (initializeRAG (some planeExtractor) [apple] (RagState.initial ℝ)).2 =
      (true, driftState) := by
  have h1 := embedLoop_success planeExtractor [apple] [[0, 1]] []
    (List.Forall₂.cons planeExtractor_apple List.Forall₂.nil)
  have h2 := embedLoop_success planeExtractor [milk, greenApple] [[3, 4], [1, 0]]
    ([] ++ List.zipWith entryOf [apple] [[0, 1]])
    (List.Forall₂.cons planeExtractor_milk
      (List.Forall₂.cons planeExtractor_greenApple List.Forall₂.nil))
  simp only [initializeRAG, loadExtractor, RagState.initial, h1, h2]
  rfl

theorem raggedState_reachable :
    initializeRAG (some raggedExtractor) [apple, milk] (RagState.initial ℝ) =
      (true, raggedState) := by
  have h := embedLoop_success raggedExtractor [apple, milk] [[1, 0], [1]] []
    (List.Forall₂.cons raggedExtractor_apple
      (List.Forall₂.cons raggedExtractor_milk List.Forall₂.nil))
  simp only [initializeRAG, loadExtractor, RagState.initial, h]
  rfl

theorem rebuiltState_reachable :
    initializeRAG none [apple, milk]
      (initializeRAG (some unitExtractor) [apple, milk] (RagState.initial ℝ)).2 =
      (true, rebuiltState) := rfl

theorem cosineSimilarity_plane_apple :
    cosineSimilarity Real.sqrt [1, 0] [0, 1] = some 0 := by
  rw [cosineSimilarity_eq Real.sqrt [1, 0] [0, 1] (by decide)]
  simp [Finset.sum_range_succ]

theorem cosineSimilarity_plane_milk :
    cosineSimilarity Real.sqrt [1, 0] [3, 4] = some (3 / 5) := by
  rw [cosineSimilarity_eq Real.sqrt [1, 0] [3, 4] (by decide)]
  have h : Real.sqrt ((3 : ℝ) * 3 + 4 * 4) = 5 := by
    rw [show ((3 : ℝ) * 3 + 4 * 4) = 5 * 5 by norm_num]
    exact Real.sqrt_mul_self (by norm_num)
  simp [Finset.sum_range_succ, h]

theorem cosineSimilarity_plane_self :
    cosineSimilarity Real.sqrt [1, 0] [1, 0] = some 1 := by
  rw [cosineSimilarity_eq Real.sqrt [1, 0] [1, 0] (by decide)]
  simp [Finset.sum_range_succ]

theorem cosineSimilarity_ragged :
    cosineSimilarity Real.sqrt [1, 0] [1] = none := by
  simp [cosineSimilarity, cosineLoop, loopBody, List.range_succ, JSNumber.add, JSNumber.mul,
    JSNumber.sqrt, JSNumber.div]



theorem searchProducts_planeState :
    searchProducts Real.sqrt planeState "apple" [apple, milk] defaultTopK =
      some [milk, apple] := by
  rw [searchProducts_eq_rank Real.sqrt planeState planeExtractor "apple" [1, 0] [apple, milk]
    defaultTopK rfl planeExtractor_query]
  have ht : topIds Real.sqrt planeState.productEmbeddings [1, 0] defaultTopK = [2, 1] := by
    simp [topIds, scores, planeState, cosineSimilarity_plane_apple, cosineSimilarity_plane_milk,
      jsSort, JSNumber.isPositive, JSNumber.sub, slice0, defaultTopK]
  simp [rankProducts, ht, jsSort, apple, milk, JSNumber.isPositive, indexOf]

theorem searchProducts_driftState :
    searchProducts Real.sqrt driftState "apple" [milk, greenApple] defaultTopK =
      some [greenApple, milk] := by
  rw [searchProducts_eq_rank Real.sqrt driftState planeExtractor "apple" [1, 0]
    [milk, greenApple] defaultTopK rfl planeExtractor_query]
  have ht : topIds Real.sqrt driftState.productEmbeddings [1, 0] defaultTopK = [1, 2, 1] := by
    simp [topIds, scores, driftState, cosineSimilarity_plane_apple,
      cosineSimilarity_plane_milk, cosineSimilarity_plane_self,
      jsSort, JSNumber.isPositive, JSNumber.sub, slice0, defaultTopK]
    norm_num
  simp [rankProducts, ht, jsSort, greenApple, milk, JSNumber.isPositive, indexOf]

theorem searchProducts_raggedState :
    searchProducts Real.sqrt raggedState "apple" [apple, milk] defaultTopK =
      some [apple, milk] := by
  rw [searchProducts_eq_rank Real.sqrt raggedState raggedExtractor "apple" [1, 0] [apple, milk]
    defaultTopK rfl raggedExtractor_query]
  have ht : topIds Real.sqrt raggedState.productEmbeddings [1, 0] defaultTopK = [1, 2] := by
    simp [topIds, scores, raggedState, cosineSimilarity_plane_self, cosineSimilarity_ragged,
      jsSort, JSNumber.isPositive, JSNumber.sub, slice0, defaultTopK]
  simp [rankProducts, ht, jsSort, apple, milk, JSNumber.isPositive, indexOf]

theorem searchProducts_rebuiltState :
    searchProducts Real.sqrt rebuiltState "apple" [apple, milk] defaultTopK =
      some [apple, milk] := by
  rw [searchProducts_eq_rank Real.sqrt rebuiltState unitExtractor "apple" [1] [apple, milk]
    defaultTopK rfl rfl]
  have ht : topIds Real.sqrt rebuiltState.productEmbeddings [1] defaultTopK = [1, 2, 1, 2] := by
    simp only [topIds, scores, rebuiltState, List.map_cons, List.map_nil, jsSort,
      List.insertionSort, List.orderedInsert, isPositive_sub_self, if_true, slice0, defaultTopK]
    simp
  simp [rankProducts, ht, jsSort, apple, milk, JSNumber.isPositive, indexOf]

end ExampleEvaluation

/-! ## The claims -/

section LengthClaims
variable {α : Type} [LinearOrderedField α]

/-- C1 (amended): with the extractor loaded and the query embedded, for an index with
pairwise distinct ids, a catalog with pairwise distinct ids that contains every
indexed id, and every integer `topK ≥ 0`, `searchProducts` returns exactly
`min topK N` items, where `N` is the number of index entries. -/
theorem searchProducts_length (sqrt : α → α) (st : RagState α) (extractor : Extractor α)
    (query : String) (queryEmbedding : List α) (products : List Product) (topK : Int)
    (hext : st.extractor = some extractor) (hq : extractor query = some queryEmbedding)
    (hcat : (products.map (fun p => p.id)).Nodup)
    (hidx : (st.productEmbeddings.map (fun e => e.id)).Nodup)
    (hsub : ∀ e ∈ st.productEmbeddings, e.id ∈ products.map (fun p => p.id))
    (hk : 0 ≤ topK) :
    ∃ res, searchProducts sqrt st query products topK = some res ∧
      (res.length : Int) = min topK st.productEmbeddings.length := by
  refine ⟨_, searchProducts_eq_rank sqrt st extractor query queryEmbedding products topK hext hq,
    ?_⟩
  rw [rankProducts_length sqrt _ queryEmbedding products topK hcat hidx hsub,
    if_neg (not_lt.mpr hk)]

theorem searchProducts_length_witness :
    ∃ res, searchProducts Real.sqrt indexedState "apple" [apple, milk] 1 = some res ∧
      (res.length : Int) = min 1 indexedState.productEmbeddings.length :=
  searchProducts_length Real.sqrt indexedState unitExtractor "apple" [1] [apple, milk] 1
    rfl rfl (by decide) (by simp [indexedState]) (by simp [indexedState, apple, milk])
    (by decide)

/-- C1 fails as stated: with two index entries, `topK = -1` returns one item and not
the empty sequence (`slice(0, -1)` drops the last score only); and with an index that
holds the id 1 twice, `topK = 2` returns one item and not `min 2 2`. -/
theorem searchProducts_length_counterexample :
    (∃ res, searchProducts Real.sqrt indexedState "apple" [apple, milk] (-1) = some res ∧
      res.length = 1) ∧
    (∃ res, searchProducts Real.sqrt duplicateState "apple" [apple] 2 = some res ∧
      res.length = 1) := by
  constructor
  · refine ⟨_, searchProducts_eq_rank Real.sqrt indexedState unitExtractor "apple" [1]
      [apple, milk] (-1) rfl rfl, ?_⟩
    have h := rankProducts_length Real.sqrt indexedState.productEmbeddings [1] [apple, milk] (-1)
      (by decide) (by simp [indexedState]) (by simp [indexedState, apple, milk])
    simp [indexedState] at h
    exact_mod_cast h
  · refine ⟨_, searchProducts_eq_rank Real.sqrt duplicateState unitExtractor "apple" [1]
      [apple] 2 rfl rfl, ?_⟩
    have ht : topIds Real.sqrt duplicateState.productEmbeddings [1] 2 = [1, 1] := by
      simp only [topIds, scores, duplicateState, List.map_cons, List.map_nil, jsSort,
        List.insertionSort, List.orderedInsert, isPositive_sub_self, if_true, slice0]
      simp
    simp [rankProducts, ht, jsSort, apple]

end LengthClaims

section OrderClaims
variable {α : Type} [LinearOrderedField α]

/-- C2 (amended): with the extractor loaded and the query embedded, when every index
entry has an embedding at least as long as the query embedding (so that no score is
`NaN`) and entries with the same id hold the same embedding (so that the embedding
stored for an id is unambiguous), `searchProducts` returns, for every catalog and
every `topK`, a sequence in which each item has a stored score `>=` that of the next
item. -/
theorem searchProducts_sorted (sqrt : α → α) (st : RagState α) (extractor : Extractor α)
    (query : String) (queryEmbedding : List α) (products : List Product) (topK : Int)
    (hext : st.extractor = some extractor) (hq : extractor query = some queryEmbedding)
    (hfun : ∀ e ∈ st.productEmbeddings, ∀ e' ∈ st.productEmbeddings,
      e.id = e'.id → e.embedding = e'.embedding)
    (hdim : ∀ e ∈ st.productEmbeddings, queryEmbedding.length ≤ e.embedding.length) :
    ∃ res, searchProducts sqrt st query products topK = some res ∧
      ∀ (i : Nat) (h : i + 1 < res.length),
        JSNumber.ge (storedScore sqrt st.productEmbeddings queryEmbedding res[i].id)
          (storedScore sqrt st.productEmbeddings queryEmbedding res[i + 1].id) := by
  refine ⟨_, searchProducts_eq_rank sqrt st extractor query queryEmbedding products topK hext hq,
    ?_⟩
  intro i h
  exact List.pairwise_iff_getElem.mp
    (rankProducts_pairwise sqrt st.productEmbeddings queryEmbedding products topK hfun hdim)
    i (i + 1) (by omega) h (Nat.lt_succ_self i)

/-- A witness of `searchProducts_sorted`: the scores 0 and 3/5 of `planeState` put
`milk` in front of `apple`, against the catalog order. -/
theorem searchProducts_sorted_witness :
    searchProducts Real.sqrt planeState "apple" [apple, milk] defaultTopK =
        some [milk, apple] ∧
      ∃ res, searchProducts Real.sqrt planeState "apple" [apple, milk] defaultTopK = some res ∧
        ∀ (i : Nat) (h : i + 1 < res.length),
          JSNumber.ge (storedScore Real.sqrt planeState.productEmbeddings [1, 0] res[i].id)
            (storedScore Real.sqrt planeState.productEmbeddings [1, 0] res[i + 1].id) :=
  ⟨searchProducts_planeState,
    searchProducts_sorted Real.sqrt planeState planeExtractor "apple" [1, 0] [apple, milk]
      defaultTopK rfl planeExtractor_query (by simp [planeState]) (by simp [planeState])⟩

/-- C2 fails as stated.  In `driftState` the id 1 is stored with two embeddings:
`greenApple` is returned first on the score 1 of the later entry, while the embedding
found for its id scores 0, less than the 3/5 of `milk`.  In `raggedState` the embedding
of `milk` is shorter than the query: its score is `NaN` and `1 >= NaN` is false. -/
theorem searchProducts_sorted_counterexample :
    (searchProducts Real.sqrt driftState "apple" [milk, greenApple] defaultTopK =
        some [greenApple, milk] ∧
      storedScore Real.sqrt driftState.productEmbeddings [1, 0] greenApple.id = some 0 ∧
      storedScore Real.sqrt driftState.productEmbeddings [1, 0] milk.id = some (3 / 5) ∧
      ¬ JSNumber.ge (storedScore Real.sqrt driftState.productEmbeddings [1, 0] greenApple.id)
        (storedScore Real.sqrt driftState.productEmbeddings [1, 0] milk.id)) ∧
    (searchProducts Real.sqrt raggedState "apple" [apple, milk] defaultTopK =
        some [apple, milk] ∧
      storedScore Real.sqrt raggedState.productEmbeddings [1, 0] apple.id = some 1 ∧
      storedScore Real.sqrt raggedState.productEmbeddings [1, 0] milk.id = none ∧
      ¬ JSNumber.ge (storedScore Real.sqrt raggedState.productEmbeddings [1, 0] apple.id)
        (storedScore Real.sqrt raggedState.productEmbeddings [1, 0] milk.id)) := by
  have d1 : storedScore Real.sqrt driftState.productEmbeddings [1, 0] greenApple.id = some 0 := by
    simp [storedScore, driftState, greenApple, cosineSimilarity_plane_apple]
  have d2 : storedScore Real.sqrt driftState.productEmbeddings [1, 0] milk.id =
      some (3 / 5) := by
    simp [storedScore, driftState, milk, cosineSimilarity_plane_milk]
  have r1 : storedScore Real.sqrt raggedState.productEmbeddings [1, 0] apple.id = some 1 := by
    simp [storedScore, raggedState, apple, cosineSimilarity_plane_self]
  have r2 : storedScore Real.sqrt raggedState.productEmbeddings [1, 0] milk.id = none := by
    simp [storedScore, raggedState, milk, cosineSimilarity_ragged]
  refine ⟨⟨searchProducts_driftState, d1, d2, ?_⟩, ⟨searchProducts_raggedState, r1, r2, ?_⟩⟩
  · rw [d1, d2]
    rintro ⟨u, v, hu, hv, hvu⟩
    cases hu
    cases hv
    norm_num at hvu
  · rw [r1, r2]
    rintro ⟨u, v, _, hv, _⟩
    cases hv

/-- C7 (amended): with the extractor loaded and the query embedded, for an index with
pairwise distinct ids whose embeddings are at least as long as the query embedding
(so that no score is `NaN` and the comparator of the sort is consistent), if the
entries at positions `i < j` of `productEmbeddings` have the same score, then in the
result of `searchProducts` the item of entry `i` stands before the item of entry `j`
whenever both are returned, for every catalog. -/
theorem searchProducts_stable (sqrt : α → α) (st : RagState α) (extractor : Extractor α)
    (query : String) (queryEmbedding : List α) (products : List Product) (topK : Int)
    (hext : st.extractor = some extractor) (hq : extractor query = some queryEmbedding)
    (hidx : (st.productEmbeddings.map (fun e => e.id)).Nodup)
    (hdim : ∀ e ∈ st.productEmbeddings, queryEmbedding.length ≤ e.embedding.length)
    (i j : Nat) (hij : i < j) (hj : j < st.productEmbeddings.length)
    (htie : cosineSimilarity sqrt queryEmbedding st.productEmbeddings[i].embedding =
      cosineSimilarity sqrt queryEmbedding st.productEmbeddings[j].embedding) :
    ∃ res, searchProducts sqrt st query products topK = some res ∧
      ∀ (m n : Nat) (hm : m < res.length) (hn : n < res.length),
        res[m].id = st.productEmbeddings[i].id → res[n].id = st.productEmbeddings[j].id →
        m < n := by
  refine ⟨_, searchProducts_eq_rank sqrt st extractor query queryEmbedding products topK hext hq,
    ?_⟩
  intro m n hm hn hmi hnj
  -- no score is `NaN`: the comparator of line 71 is consistent
  have _hnum := scores_isSome sqrt st.productEmbeddings queryEmbedding hdim
  have hmem := mem_rankProducts sqrt st.productEmbeddings queryEmbedding products topK
  have hmt := ((hmem _).mp (List.getElem_mem hm)).2
  have hnt := ((hmem _).mp (List.getElem_mem hn)).2
  rw [hmi] at hmt
  rw [hnj] at hnt
  have hlt := topIds_indexOf_lt sqrt st.productEmbeddings queryEmbedding topK hidx i j hij hj
    htie hnt
  have hsorted : (rankProducts sqrt st.productEmbeddings queryEmbedding products topK).Pairwise
      (fun a b => indexOf (topIds sqrt st.productEmbeddings queryEmbedding topK) a.id ≤
        indexOf (topIds sqrt st.productEmbeddings queryEmbedding topK) b.id) :=
    jsSort_indexOf_pairwise _ _
  by_contra hnm
  rcases Nat.lt_or_eq_of_le (not_lt.mp hnm) with h | h
  · have := List.pairwise_iff_getElem.mp hsorted n m hn hm h
    rw [hmi, hnj, indexOf_of_mem _ _ hmt, indexOf_of_mem _ _ hnt] at this
    omega
  · subst h
    rw [hmi] at hnj
    rw [hnj] at hlt
    exact lt_irrefl _ hlt

theorem searchProducts_stable_witness :
    ∃ res, searchProducts Real.sqrt indexedState "apple" [milk, apple] 2 = some res ∧
      ∀ (m n : Nat) (hm : m < res.length) (hn : n < res.length),
        res[m].id = 1 → res[n].id = 2 → m < n :=
  searchProducts_stable Real.sqrt indexedState unitExtractor "apple" [1] [milk, apple] 2
    rfl rfl (by simp [indexedState]) (by simp [indexedState]) 0 1 (by decide)
    (by simp [indexedState])
    rfl

/-- C7 fails as stated.  In `rebuiltState` (ids 1, 2, 1, 2, all with the same score)
the entry at position 1 has the id 2 and the entry at position 2 has the id 1; both
items are returned, and the item with the id 1 stands first. -/
theorem searchProducts_stable_counterexample :
    (rebuiltState.productEmbeddings[1]?).map (fun e => e.id) = some 2 ∧
    (rebuiltState.productEmbeddings[2]?).map (fun e => e.id) = some 1 ∧
    (∀ e ∈ rebuiltState.productEmbeddings,
      cosineSimilarity Real.sqrt [1] e.embedding = cosineSimilarity Real.sqrt [1] [1]) ∧
    searchProducts Real.sqrt rebuiltState "apple" [apple, milk] defaultTopK =
      some [apple, milk] ∧
    ([apple, milk][0]?).map (fun p => p.id) = some 1 ∧
    ([apple, milk][1]?).map (fun p => p.id) = some 2 := by
  refine ⟨rfl, rfl, ?_, searchProducts_rebuiltState, rfl, rfl⟩
  intro e he
  simp only [rebuiltState, List.mem_cons, List.mem_singleton, List.not_mem_nil, or_false] at he
  rcases he with rfl | rfl | rfl | rfl <;> rfl

end OrderClaims

section MismatchClaims
variable {α : Type} [LinearOrderedField α]

/-- C4 (amended): `cosineSimilarity` checks no dimension and raises no error.  When `a`
is shorter than `b` it returns a number, the score of `a` against the first
`a.length` components of `b`; when `a` is longer than `b` it returns `0` or `NaN`. -/
theorem cosineSimilarity_mismatch (sqrt : α → α) (a b : List α) :
    (a.length < b.length →
      ∃ s, cosineSimilarity sqrt a b = some s ∧
        cosineSimilarity sqrt a (b.take a.length) = some s) ∧
    (b.length < a.length →
      cosineSimilarity sqrt a b = some 0 ∨ cosineSimilarity sqrt a b = none) := by
  constructor
  · intro h
    obtain ⟨s, hs⟩ := cosineSimilarity_isSome sqrt a b h.le
    exact ⟨s, hs, by rw [← cosineSimilarity_take sqrt a b h.le, hs]⟩
  · exact cosineSimilarity_longer sqrt a b

theorem cosineSimilarity_mismatch_witness :
    (∃ s, cosineSimilarity Real.sqrt [1] [1, 5] = some s ∧
      cosineSimilarity Real.sqrt [1] ([1, 5].take 1) = some s) ∧
    (cosineSimilarity Real.sqrt [1, 5] [1] = some 0 ∨
      cosineSimilarity Real.sqrt [1, 5] [1] = none) :=
  ⟨(cosineSimilarity_mismatch Real.sqrt [1] [1, 5]).1 (by decide),
    (cosineSimilarity_mismatch Real.sqrt [1, 5] [1]).2 (by decide)⟩

/-- C4 fails as stated: for `a = [1]` and `b = [1, 5]`, of different lengths,
`cosineSimilarity` returns the number `1`, the score of `[1]` against `[1]`. -/
theorem cosineSimilarity_mismatch_counterexample :
    ([1] : List ℝ).length ≠ ([1, 5] : List ℝ).length ∧
      cosineSimilarity Real.sqrt [1] [1, 5] = some 1 := by
  refine ⟨by decide, ?_⟩
  rw [cosineSimilarity_eq Real.sqrt [1] [1, 5] (by decide)]
  simp

end MismatchClaims

section InitializationClaims
variable {α : Type}

/-- C5 (amended): a successful `initializeRAG` call keeps every entry already in
`productEmbeddings` and appends one entry per catalog item, in catalog order; the ids
stored afterwards are the ids stored before followed by the catalog ids. -/
theorem initializeRAG_success (pipeline : Option (Extractor α)) (st : RagState α)
    (extractor : Extractor α) (products : List Product) (outputs : List (List α))
    (hload : loadExtractor pipeline st = some extractor)
    (hall : List.Forall₂ (fun p v => extractor (textToEmbed p) = some v) products outputs) :
    initializeRAG pipeline products st =
        (true, ⟨some extractor,
          st.productEmbeddings ++ List.zipWith entryOf products outputs⟩) ∧
      (initializeRAG pipeline products st).2.productEmbeddings.map (fun e => e.id) =
        st.productEmbeddings.map (fun e => e.id) ++ products.map (fun p => p.id) := by
  have h : initializeRAG pipeline products st =
      (true, ⟨some extractor,
        st.productEmbeddings ++ List.zipWith entryOf products outputs⟩) := by
    simp only [initializeRAG, hload, embedLoop_success extractor products outputs _ hall]
  refine ⟨h, ?_⟩
  rw [h]
  simp only [List.map_append, zipWith_entryOf_ids products outputs hall.length_eq]

theorem initializeRAG_success_witness :
    initializeRAG (some unitExtractor) [apple, milk] (RagState.initial ℝ) =
        (true, ⟨some unitExtractor,
          (RagState.initial ℝ).productEmbeddings ++
            List.zipWith entryOf [apple, milk] [[1], [1]]⟩) ∧
      (initializeRAG (some unitExtractor) [apple, milk]
          (RagState.initial ℝ)).2.productEmbeddings.map (fun e => e.id) =
        (RagState.initial ℝ).productEmbeddings.map (fun e => e.id) ++
          [apple, milk].map (fun p => p.id) :=
  initializeRAG_success (some unitExtractor) (RagState.initial ℝ) unitExtractor [apple, milk]
    [[1], [1]] rfl (List.Forall₂.cons rfl (List.Forall₂.cons rfl List.Forall₂.nil))

/-- C5 fails as stated: two successful `initializeRAG` calls over the catalog `[apple]`
leave two entries with the id 1 in `productEmbeddings`. -/
theorem initializeRAG_rebuild_counterexample :
    (initializeRAG (some unitExtractor) [apple] (RagState.initial ℝ)).1 = true ∧
    (initializeRAG (some unitExtractor) [apple]
      (initializeRAG (some unitExtractor) [apple] (RagState.initial ℝ)).2).1 = true ∧
    (initializeRAG (some unitExtractor) [apple]
      (initializeRAG (some unitExtractor) [apple]
        (RagState.initial ℝ)).2).2.productEmbeddings.map (fun e => e.id) = [1, 1] ∧
    ¬ ((initializeRAG (some unitExtractor) [apple]
      (initializeRAG (some unitExtractor) [apple]
        (RagState.initial ℝ)).2).2.productEmbeddings.map (fun e => e.id)).Nodup := by
  refine ⟨rfl, rfl, rfl, ?_⟩
  have h : (initializeRAG (some unitExtractor) [apple]
      (initializeRAG (some unitExtractor) [apple]
        (RagState.initial ℝ)).2).2.productEmbeddings.map (fun e => e.id) = [1, 1] := rfl
  rw [h]
  decide

/-- C6 (amended): when the extractor is available and throws for the first time on the
item `p`, after it embedded every item of `pre`, `initializeRAG` returns `false`,
keeps the extractor, and leaves in `productEmbeddings` the previous entries followed
by one entry for every item of `pre`. -/
theorem initializeRAG_failure (pipeline : Option (Extractor α)) (st : RagState α)
    (extractor : Extractor α) (pre : List Product) (p : Product) (post : List Product)
    (outputs : List (List α))
    (hload : loadExtractor pipeline st = some extractor)
    (hpre : List.Forall₂ (fun x v => extractor (textToEmbed x) = some v) pre outputs)
    (hfail : extractor (textToEmbed p) = none) :
    initializeRAG pipeline (pre ++ p :: post) st =
      (false, ⟨some extractor, st.productEmbeddings ++ List.zipWith entryOf pre outputs⟩) := by
  simp only [initializeRAG, hload, embedLoop_failure extractor p post hfail pre outputs _ hpre]

theorem failingExtractor_apple : failingExtractor (textToEmbed apple) = some [1] := by
  unfold failingExtractor
  rw [if_neg]
  decide

theorem failingExtractor_milk : failingExtractor (textToEmbed milk) = none := by
  unfold failingExtractor
  rw [if_pos rfl]

theorem initializeRAG_failure_witness :
    initializeRAG (some failingExtractor) ([apple] ++ milk :: []) (RagState.initial ℝ) =
      (false, ⟨some failingExtractor,
        (RagState.initial ℝ).productEmbeddings ++ List.zipWith entryOf [apple] [[1]]⟩) :=
  initializeRAG_failure (some failingExtractor) (RagState.initial ℝ) failingExtractor
    [apple] milk [] [[1]] rfl (List.Forall₂.cons failingExtractor_apple List.Forall₂.nil)
    failingExtractor_milk

end InitializationClaims

section HandlerClaims
variable {α : Type} [LinearOrderedField α]

/-- C6 fails as stated: with an extractor that throws on `milk`, `initializeRAG` over
`[apple, milk]` from the initial state returns `false` and leaves the entry of `apple`
in `productEmbeddings`, which was empty before; `searchProducts` then ranks against
this partial index and returns `apple`. -/
theorem initializeRAG_rollback_counterexample :
    (initializeRAG (some failingExtractor) [apple, milk] (RagState.initial ℝ)).1 = false ∧
    (initializeRAG (some failingExtractor) [apple, milk]
      (RagState.initial ℝ)).2.productEmbeddings.map (fun e => e.id) = [1] ∧
    (RagState.initial ℝ).productEmbeddings.map (fun e => e.id) = [] ∧
    searchProducts Real.sqrt
      (initializeRAG (some failingExtractor) [apple, milk] (RagState.initial ℝ)).2
      "apple" [apple, milk] defaultTopK = some [apple] := by
  have h : initializeRAG (some failingExtractor) [apple, milk] (RagState.initial ℝ) =
      (false, ⟨some failingExtractor, [⟨1, [1]⟩]⟩) := by
    have he : embedLoop failingExtractor [apple, milk] [] =
        (false, [] ++ List.zipWith entryOf [apple] [[1]]) :=
      embedLoop_failure failingExtractor milk [] failingExtractor_milk [apple] [[1]] []
        (List.Forall₂.cons failingExtractor_apple List.Forall₂.nil)
    simp only [initializeRAG, loadExtractor, RagState.initial, he]
    rfl
  rw [h]
  refine ⟨rfl, rfl, rfl, ?_⟩
  have hq : failingExtractor "apple" = some [1] := by
    unfold failingExtractor
    rw [if_neg]
    decide
  rw [searchProducts_eq_rank Real.sqrt _ failingExtractor "apple" [1] [apple, milk] defaultTopK
    rfl hq]
  simp [rankProducts, topIds, scores, jsSort, slice0, defaultTopK, apple, milk]

/-- C8 (amended): for every input of the search box that is empty or consists only of
characters removed by `trim`, in the Ready and in the Degraded state, the search-input
handler of main.js hands the full catalog, in catalog order, to `renderProducts`. -/
theorem searchInputHandler_blank (sqrt : α → α) (toLowerCase : String → String)
    (isRAGReady : Bool) (st : RagState α) (products : List Product) (value : String)
    (hblank : ∀ c ∈ value.data, isTrimmed c = true) :
    searchInputHandler sqrt toLowerCase isRAGReady st products value = some products := by
  simp [searchInputHandler, trim_eq_empty value hblank]

theorem searchInputHandler_blank_witness :
    searchInputHandler Real.sqrt String.toLower true indexedState [milk, apple] " \t\n" =
      some [milk, apple] :=
  searchInputHandler_blank Real.sqrt String.toLower true indexedState [milk, apple] " \t\n"
    (by decide)

/-- C8 fails as stated: `searchProducts` with the empty query returns the empty
sequence in the initial state, and in a Ready state over six products it returns
five items, not the catalog. -/
theorem searchProducts_blank_counterexample :
    searchProducts Real.sqrt (RagState.initial ℝ) "" [apple] defaultTopK = some [] ∧
    (∃ res, searchProducts Real.sqrt readyState6 "" catalog6 defaultTopK = some res ∧
      res.length = 5 ∧ catalog6.length = 6) := by
  refine ⟨rfl, _, searchProducts_eq_rank Real.sqrt readyState6 unitExtractor "" [1] catalog6
    defaultTopK rfl rfl, ?_, rfl⟩
  have h := rankProducts_length Real.sqrt readyState6.productEmbeddings [1] catalog6 defaultTopK
    (by decide) (by simp [readyState6]) (by simp [readyState6, catalog6, apple, milk])
  simp [readyState6, defaultTopK] at h
  exact_mod_cast h

/-- C9: in the Degraded state (`isRAGReady` false), for every input whose trimmed text is
not empty, the handler renders exactly the catalog items, in catalog order, for which
the lower-cased query occurs as a substring of the lower-cased name or of the
lower-cased description; replacing the tags of the catalog items changes nothing but
the tags of the rendered items. -/
theorem searchInputHandler_fallback (sqrt : α → α) (toLowerCase : String → String)
    (st : RagState α) (products : List Product) (value : String)
    (hquery : trim value ≠ "") :
    searchInputHandler sqrt toLowerCase false st products value =
        some (products.filter (fun p =>
          @decide (occursIn (toLowerCase (trim value)) (toLowerCase p.name) ∨
            occursIn (toLowerCase (trim value)) (toLowerCase p.description))
            (Classical.propDecidable _))) ∧
      ∀ f : Product → List String,
        searchInputHandler sqrt toLowerCase false st (products.map (withTags f)) value =
          (searchInputHandler sqrt toLowerCase false st products value).map
            (List.map (withTags f)) := by
  have hfilter : ∀ l : List Product,
      searchInputHandler sqrt toLowerCase false st l value =
        some (l.filter (fun p =>
          includes (toLowerCase p.name) (toLowerCase (trim value)) ||
            includes (toLowerCase p.description) (toLowerCase (trim value)))) := by
    intro l
    simp [searchInputHandler, hquery]
  constructor
  · rw [hfilter]
    congr 1
    apply List.filter_congr
    intro p _
    rw [Bool.eq_iff_iff]
    simp only [Bool.or_eq_true, decide_eq_true_eq, includes_iff]
  · intro f
    rw [hfilter, hfilter]
    simp only [Option.map_some', List.filter_map, Option.some.injEq]
    rfl

theorem searchInputHandler_fallback_witness :
    searchInputHandler Real.sqrt String.toLower false indexedState [apple, milk] " MILK " =
        some ([apple, milk].filter (fun p =>
          @decide (occursIn (String.toLower (trim " MILK ")) (String.toLower p.name) ∨
            occursIn (String.toLower (trim " MILK ")) (String.toLower p.description))
            (Classical.propDecidable _))) ∧
      ∀ f : Product → List String,
        searchInputHandler Real.sqrt String.toLower false indexedState
            ([apple, milk].map (withTags f)) " MILK " =
          (searchInputHandler Real.sqrt String.toLower false indexedState [apple, milk]
            " MILK ").map (List.map (withTags f)) :=
  searchInputHandler_fallback Real.sqrt String.toLower indexedState [apple, milk] " MILK "
    (by decide)

end HandlerClaims

end Rag
